import Mathlib

/-!
Verification of the live-score reconciliation logic of `src/live.js`
(volley-score-v2).  The definitions below are a shallow embedding of the
JavaScript source: JS numbers become `Int`/`Nat`, nullable values become
`Option`, JS `Map`/object tables become association lists where a later
`set` shadows an earlier one, and the per-poll reconciliation loop of
`loadLive` becomes an explicit fold.  The serve value stored per match is
either `null` (spec state `Unknown`) or `{side, hot}`; we model it as
`Option ServeState`.
-/

/-- A playing side, `"home"` or `"away"` in the source. -/
inductive Side
  | home
  | away
deriving DecidableEq, Repr

/-- Serve possession record `{side, hot}` as built in `loadLive`
(src/live.js lines 478-490).  The table value is `Option ServeState`,
`none` standing for JS `null` (spec state `Unknown`). -/
structure ServeState where
  side : Side
  hot : Bool
deriving DecidableEq, Repr

/-- Kind of a transient play label, `"break-point"` or `"side-out"`
(the source stores it in the `type` field). -/
inductive LabelKind
  | breakPoint
  | sideOut
deriving DecidableEq, Repr

/-- Play label `{side, type}` emitted by the serve logic in `loadLive`. -/
structure PlayLabel where
  side : Side
  kind : LabelKind
deriving DecidableEq, Repr

/-- Match snapshot as consumed by the live view.  Per-set point slots
`home_p1, home_p2, ...` are modelled as a function from the set index,
since the source also reads `ev["home_p" + setNo]` for a set number parsed
out of `status_desc` (which may exceed 5). -/
structure Ev where
  event_id : Option String
  custom_id : Option String
  start_ts : Option Int
  home_team_name : Option String
  away_team_name : Option String
  status_type : Option String
  status_desc : Option String
  home_team_id : Option Int
  home_teams_id : Option Int
  away_team_id : Option Int
  away_teams_id : Option Int
  home_p : Nat → Option Int
  away_p : Nat → Option Int

/-- An event with every field absent; concrete snapshots below override
the fields they need. -/
def baseEv : Ev :=
  { event_id := none
    custom_id := none
    start_ts := none
    home_team_name := none
    away_team_name := none
    status_type := none
    status_desc := none
    home_team_id := none
    home_teams_id := none
    away_team_id := none
    away_teams_id := none
    home_p := fun _ => none
    away_p := fun _ => none }

/-- Point-slot assignment from an explicit list of `(set index, value)`
pairs, used to build concrete snapshots. -/
def mkPoints (l : List (Nat × Int)) : Nat → Option Int :=
  fun n => List.lookup n l

/-- Value of a maximal digit run, digits most significant first. -/
def digitRunVal (cs : List Char) : Nat :=
  cs.foldl (fun n c => 10 * n + (c.toNat - 48)) 0

/-- First run of decimal digits in a string, as a number: the embedding of
the JS `String(s).match(/(\d+)/)` followed by `Number(m[1])` in
`currentPoints` (src/live.js line 58). -/
def firstNat (s : String) : Option Nat :=
  let cs := s.data.dropWhile (fun c => !c.isDigit)
  let ds := cs.takeWhile (fun c => c.isDigit)
  if ds.isEmpty then none else some (digitRunVal ds)

/-- Downward scan `for (let i = 5; i >= 1; i--)` of `currentPoints`
(src/live.js lines 61-65): the first set index, from `limit` down to 1,
whose home or away slot is non-null. -/
def scanDown (ev : Ev) : Nat → Option Nat
  | 0 => none
  | Nat.succ i =>
      if (ev.home_p (i + 1)).isSome || (ev.away_p (i + 1)).isSome then some (i + 1)
      else scanDown ev i

/-- Result of `currentPoints`: the current set number and that set's point
pair.  `setNo = none` is JS `null`; the source can also yield the number 0
(from a `status_desc` containing the digit 0 when no slot is filled),
which is falsy in JS, so the point fields are then null. -/
structure PointState where
  setNo : Option Nat
  home : Option Int
  away : Option Int
deriving DecidableEq, Repr

/-- Embedding of `currentPoints(ev)` (src/live.js lines 56-72): the set
number is first parsed from `status_desc`; a falsy result (null or 0)
falls back to a hard-coded scan of slots 5 down to 1; the point pair is
read from the chosen slot when the set number is truthy. -/
def currentPoints (ev : Ev) : PointState :=
  let parsed := firstNat (ev.status_desc.getD "")
  let setNo : Option Nat :=
    match parsed with
    | some n =>
        if n = 0 then
          match scanDown ev 5 with
          | some i => some i
          | none => some 0
        else some n
    | none => scanDown ev 5
  match setNo with
  | some n => if n = 0 then ⟨some 0, none, none⟩ else ⟨some n, ev.home_p n, ev.away_p n⟩
  | none => ⟨none, none, none⟩

/-- Embedding of `eventId(ev)` (src/live.js line 195): stable id used for
focus, `event_id ?? custom_id ?? null`. -/
def eventId (ev : Ev) : Option String :=
  ev.event_id <|> ev.custom_id

/-- Embedding of `eventKey(ev)` (src/live.js lines 203-211): the stable
id when present, else the composite of start time and both team names. -/
def eventKey (ev : Ev) : String :=
  match eventId ev with
  | some id => id
  | none =>
      (match ev.start_ts with
       | some t => toString t
       | none => "") ++ "-" ++
      ev.home_team_name.getD "" ++ "-" ++
      ev.away_team_name.getD ""

/-- Association-list read modelling JS `Map.get` / object indexing; a
later `mapSet` for the same key shadows an earlier one because entries
are prepended. -/
def mapGet {α : Type} : List (String × α) → String → Option α
  | [], _ => none
  | (k', v) :: t, k => if k = k' then some v else mapGet t k

/-- Association-list write modelling JS `Map.set` / object assignment. -/
def mapSet {α : Type} (m : List (String × α)) (k : String) (v : α) : List (String × α) :=
  (k, v) :: m

/-- Score detection for one side (src/live.js lines 464 and 469): the
side scored iff its current and prior points are both non-null and the
current value is strictly greater. -/
def sideInc (cur prev : Option Int) : Bool :=
  match cur, prev with
  | some c, some p => decide (p < c)
  | _, _ => false

/-- Serve-possession transition inlined at src/live.js lines 475-491:
from the prior serve value (`none` = Unknown) and the side judged to have
scored (if any), the next serve value and the optional play label.  The
source guard `prevServe.side && prevServe.side !== sideScored` collapses
to `ps.side ≠ s` here because every stored serve record carries a real
side. -/
def advance (prevServe : Option ServeState) (sideScored : Option Side) :
    Option ServeState × Option PlayLabel :=
  match sideScored with
  | none => (prevServe, none)
  | some s =>
      match prevServe with
      | some ps =>
          if ps.side = s then (some ⟨s, true⟩, some ⟨s, LabelKind.breakPoint⟩)
          else (some ⟨s, false⟩, some ⟨s, LabelKind.sideOut⟩)
      | none => (some ⟨s, false⟩, none)

/-- Per-event result of one iteration of the `loadLive` reconciliation
loop: the side fed to the serve transition, the two flash flags, the new
serve value written to the table, and the optional play label. -/
structure StepOut where
  sideScored : Option Side
  flashHome : Bool
  flashAway : Bool
  serve : Option ServeState
  label : Option PlayLabel
deriving DecidableEq, Repr

/-- Body of the `loadLive` loop for one snapshot (src/live.js lines
455-495), given the prior point pair looked up for the key (`{}` on a
first sighting, i.e. all fields null) and the prior serve value.  The
source assigns `sideScored = "home"` and then possibly overwrites it with
`"away"`, so away wins when both sides increased. -/
def stepEvent (prev : PointState) (prevServe : Option ServeState) (ev : Ev) : StepOut :=
  let p := currentPoints ev
  let homeScored := sideInc p.home prev.home
  let awayScored := sideInc p.away prev.away
  let sideScored : Option Side :=
    if awayScored then some Side.away
    else if homeScored then some Side.home
    else none
  let sl := advance prevServe sideScored
  ⟨sideScored, homeScored, awayScored, sl.1, sl.2⟩

/-- Per-key flash entry; the source stores fresh numeric tokens whose
only contract is inequality across renders, so we record the per-side
"stamped in this cycle" fact. -/
structure FlashPair where
  home : Bool
  away : Bool
deriving DecidableEq, Repr

/-- Flash-table update of the loop (src/live.js lines 466-467 and
471-472): when a side scored, its field of the key's entry is stamped,
merging into an entry created earlier in the same cycle. -/
def flashStamp (m : List (String × FlashPair)) (k : String) (h a : Bool) :
    List (String × FlashPair) :=
  if h || a then
    let cur := (mapGet m k).getD ⟨false, false⟩
    mapSet m k ⟨cur.home || h, cur.away || a⟩
  else m

/-- Map from event key to its current point pair, built from the previous
snapshot array (src/live.js lines 444-448). -/
def prevPointsOf (prevEvents : List Ev) : List (String × PointState) :=
  prevEvents.foldl (fun m ev => mapSet m (eventKey ev) (currentPoints ev)) []

/-- Replacement tables produced by one reconciliation cycle. -/
structure ReconAcc where
  serve : List (String × Option ServeState)
  playLabel : List (String × PlayLabel)
  flash : List (String × FlashPair)
deriving Repr

/-- One iteration of the reconciliation loop over the accumulated
replacement tables (src/live.js lines 455-495). -/
def reconBody (prevPointsMap : List (String × PointState))
    (prevServeMap : List (String × Option ServeState))
    (acc : ReconAcc) (ev : Ev) : ReconAcc :=
  let key := eventKey ev
  let prev := (mapGet prevPointsMap key).getD ⟨none, none, none⟩
  let prevServe := (mapGet prevServeMap key).getD none
  let so := stepEvent prev prevServe ev
  { serve := mapSet acc.serve key so.serve
    playLabel :=
      match so.label with
      | some l => mapSet acc.playLabel key l
      | none => acc.playLabel
    flash := flashStamp acc.flash key so.flashHome so.flashAway }

/-- Whole reconciliation pass of `loadLive` (src/live.js lines 440-499):
fresh serve, play-label and flash tables are built from scratch by
folding the loop body over the new snapshot array, diffing against the
point pairs of the previous snapshot array and the previous serve
table. -/
def reconcileStep (prevEvents : List Ev)
    (prevServeMap : List (String × Option ServeState))
    (nextEvents : List Ev) : ReconAcc :=
  nextEvents.foldl (reconBody (prevPointsOf prevEvents) prevServeMap) ⟨[], [], []⟩

/-- Fetch outcome of one poll cycle: parsed data, cooperative
cancellation (`AbortError`), or any other failure with its message. -/
inductive FetchOutcome
  | success (data : List Ev)
  | aborted
  | failure (msg : String)

/-- Per-session state touched by `loadLive`: the stored snapshot array,
the visible error message, the loading flag, and the three derived
tables. -/
structure AppState where
  events : List Ev
  error : String
  loading : Bool
  serveTable : List (String × Option ServeState)
  flash : List (String × FlashPair)
  playLabel : List (String × PlayLabel)

/-- One invocation of `loadLive` (src/live.js lines 431-510) as a state
transformer: the error is cleared before the fetch; an `AbortError`
returns early touching nothing else; any other failure sets the message;
success runs the reconciliation and replaces the derived tables; the
`finally` clause always clears the loading flag. -/
def pollStep (s : AppState) (o : FetchOutcome) : AppState :=
  let s1 : AppState := { s with error := "" }
  match o with
  | FetchOutcome.aborted => { s1 with loading := false }
  | FetchOutcome.failure msg => { s1 with error := msg, loading := false }
  | FetchOutcome.success data =>
      let r := reconcileStep s1.events s1.serveTable data
      { events := data
        error := ""
        loading := false
        serveTable := r.serve
        flash := r.flash
        playLabel := r.playLabel }

/-- Roster record for a team; only the country field takes part in
classification. -/
structure TeamRec where
  country : String
deriving DecidableEq, Repr

/-- The three match categories returned by `classifyEventGroup`
(src/live.js lines 213-239): `mizuno` is the home-federation category of
the spec, `abroad` and `other` keep their names. -/
inductive EvGroup
  | mizuno
  | abroad
  | other
deriving DecidableEq, Repr

/-- Embedding of `getHomeId(ev)` (src/live.js line 164). -/
def getHomeId (ev : Ev) : Option Int :=
  ev.home_team_id <|> ev.home_teams_id

/-- Embedding of `getAwayId(ev)` (src/live.js line 165). -/
def getAwayId (ev : Ev) : Option Int :=
  ev.away_team_id <|> ev.away_teams_id

/-- Embedding of `classifyEventGroup(ev, teamsBySofaId)` (src/live.js
lines 219-239).  The roster map is a total function from the foreign
team id to an optional record; an empty roster is `fun _ => none`, which
also covers the source's guard returning `"other"` when the map object is
missing. -/
def classifyEventGroup (ev : Ev) (teamsBySofaId : Int → Option TeamRec) : EvGroup :=
  let homeTeam := (getHomeId ev).bind teamsBySofaId
  let awayTeam := (getAwayId ev).bind teamsBySofaId
  let hasNorwegian :=
    (match homeTeam with
     | some t => t.country == "Norge"
     | none => false) ||
    (match awayTeam with
     | some t => t.country == "Norge"
     | none => false)
  let anyKnown := homeTeam.isSome || awayTeam.isSome
  if hasNorwegian then EvGroup.mizuno
  else if anyKnown then EvGroup.abroad
  else EvGroup.other

/-- Embedding of `isLiveStatus(statusType)` (src/live.js lines 28-31):
the lowercased status contains one of the live markers. -/
def containsChars (pat : List Char) : List Char → Bool
  | [] => decide (pat = [])
  | c :: cs => decide (pat <+: (c :: cs)) || containsChars pat cs

/-- Substring test over strings, used by the status helpers. -/
def containsSub (s pat : String) : Bool :=
  containsChars pat.data s.data

/-- Character-wise lowercasing, the embedding of JS `toLowerCase()` for
the ASCII status strings the feed uses. -/
def toLowerStr (s : String) : String :=
  ⟨s.data.map Char.toLower⟩

/-- Live-status test of src/live.js lines 28-31. -/
def isLiveStatus (statusType : Option String) : Bool :=
  let t := toLowerStr (statusType.getD "")
  containsSub t "inprogress" || containsSub t "live" || containsSub t "inplay"

/-- Focused-event lookup of the wake-lock effect (src/live.js lines
603-608): the focused id is searched first in the filtered list, then in
the full live list. -/
def findEvent (focusedId : String) (filtered liveEvents : List Ev) : Option Ev :=
  (filtered.find? (fun ev => eventId ev == some focusedId)) <|>
  (liveEvents.find? (fun ev => eventId ev == some focusedId))

/-- The `shouldKeepAwake` condition of the wake-lock effect (src/live.js
lines 610-616): a focused event exists, its status is live, and its
current set number is non-null. -/
def shouldKeepAwake (focusedId : Option String) (filtered liveEvents : List Ev) : Bool :=
  match focusedId with
  | none => false
  | some id =>
      match findEvent id filtered liveEvents with
      | none => false
      | some ev => isLiveStatus ev.status_type && (currentPoints ev).setNo.isSome

/-- Embedding of `requestWakeLock` (src/live.js lines 513-527) on a
supporting platform: the held lock is an optional opaque handle; a new
handle `fresh` is acquired only when none is held, so re-requesting while
held is a no-op.  When unsupported the call changes nothing. -/
def requestWakeLock (supported : Bool) (fresh : Nat) (lock : Option Nat) : Option Nat :=
  if supported then
    match lock with
    | some h => some h
    | none => some fresh
  else lock

/-- Embedding of `releaseWakeLock` (src/live.js lines 529-538). -/
def releaseWakeLock (_lock : Option Nat) : Option Nat :=
  none

/-- The wake-lock reconciliation effect (src/live.js lines 601-622):
request the lock when `shouldKeepAwake` holds, release it otherwise. -/
def wakeLockEffect (supported : Bool) (fresh : Nat) (focusedId : Option String)
    (filtered liveEvents : List Ev) (lock : Option Nat) : Option Nat :=
  if shouldKeepAwake focusedId filtered liveEvents then
    requestWakeLock supported fresh lock
  else releaseWakeLock lock

/-- The `visibilitychange` handler installed by the same effect
(src/live.js lines 624-628): on becoming visible, re-request the lock if
the preconditions still hold. -/
def handleVisibility (visible supported : Bool) (fresh : Nat) (focusedId : Option String)
    (filtered liveEvents : List Ev) (lock : Option Nat) : Option Nat :=
  if visible && shouldKeepAwake focusedId filtered liveEvents then
    requestWakeLock supported fresh lock
  else lock

/-- Focus and filter state of the `App` component. -/
structure UiState where
  filter : EvGroup
  focusedId : Option String
deriving DecidableEq, Repr

/-- Filter-button click handler (src/live.js line 651): set the filter
and clear the focus. -/
def clickFilterButton (_s : UiState) (k : EvGroup) : UiState :=
  { filter := k, focusedId := none }

/-- Card click handler (src/live.js lines 709-716): no stable id clears
focus; the already-focused id toggles focus off; a different id takes
focus. -/
def clickCard (s : UiState) (id : Option String) : UiState :=
  match id with
  | none => { s with focusedId := none }
  | some i =>
      { s with focusedId := if s.focusedId = some i then none else some i }

/-- Per-category live-match counts (src/live.js lines 556-566). -/
structure Counts where
  mizuno : Nat
  abroad : Nat
  other : Nat
deriving DecidableEq, Repr

/-- Embedding of the `counts` computation (src/live.js lines 556-566). -/
def countGroups (liveEvents : List Ev) (roster : Int → Option TeamRec) : Counts :=
  liveEvents.foldl
    (fun c ev =>
      match classifyEventGroup ev roster with
      | EvGroup.mizuno => { c with mizuno := c.mizuno + 1 }
      | EvGroup.abroad => { c with abroad := c.abroad + 1 }
      | EvGroup.other => { c with other := c.other + 1 })
    ⟨0, 0, 0⟩

/-- The smart default-filter effect (src/live.js lines 569-577): whenever
the counts change, the filter is recomputed from them; the focus field
is not touched. -/
def smartDefaultFilter (counts : Counts) (s : UiState) : UiState :=
  { s with
    filter :=
      if counts.mizuno > 0 then EvGroup.mizuno
      else if counts.abroad > 0 then EvGroup.abroad
      else EvGroup.other }

/-- Reading the key just written returns the written value. -/
theorem mapGet_mapSet_self {α : Type} (m : List (String × α)) (k : String) (v : α) :
    mapGet (mapSet m k v) k = some v := by
  simp [mapGet, mapSet]

/-- Writing a different key leaves a read unchanged. -/
theorem mapGet_mapSet_ne {α : Type} (m : List (String × α)) (k k' : String) (v : α)
    (h : k ≠ k') : mapGet (mapSet m k' v) k = mapGet m k := by
  simp [mapGet, mapSet, h]

/-- A side never counts as scoring when its prior value is null. -/
theorem sideInc_right_none (c : Option Int) : sideInc c none = false := by
  cases c <;> rfl

/-- On a first sighting (all prior point fields null) the loop body
detects no score, stamps no flash, emits no label and passes the prior
serve value through. -/
theorem stepEvent_baseline (ps : Option ServeState) (ev : Ev) :
    stepEvent ⟨none, none, none⟩ ps ev = ⟨none, false, false, ps, none⟩ := by
  simp [stepEvent, sideInc_right_none, advance]

/-- Stamping nothing leaves the flash table unchanged. -/
theorem flashStamp_false (m : List (String × FlashPair)) (k : String) :
    flashStamp m k false false = m := rfl

/-- A flash write for a different key leaves a read unchanged. -/
theorem mapGet_flashStamp_ne (m : List (String × FlashPair)) (k k' : String)
    (a b : Bool) (h : k ≠ k') : mapGet (flashStamp m k' a b) k = mapGet m k := by
  unfold flashStamp
  split
  · exact mapGet_mapSet_ne _ _ _ _ h
  · rfl

/-- A key appearing in no previous snapshot is absent from the
previous-points map. -/
theorem mapGet_prevPoints_none (k : String) :
    ∀ (l : List Ev) (m : List (String × PointState)),
      (∀ e ∈ l, eventKey e ≠ k) → mapGet m k = none →
      mapGet (l.foldl (fun m ev => mapSet m (eventKey ev) (currentPoints ev)) m) k = none := by
  intro l
  induction l with
  | nil => intro m _ hm; simpa using hm
  | cons e t ih =>
      intro m hl hm
      simp only [List.foldl_cons]
      refine ih _ (fun e' he' => hl e' (List.mem_cons_of_mem _ he')) ?_
      rw [mapGet_mapSet_ne _ _ _ _ (Ne.symm (hl e (List.mem_cons_self _ _)))]
      exact hm

/-- Fold invariant: a key with no previous point pair picks up no flash
entry and no play label during the reconciliation loop. -/
theorem recon_fold_fresh_key_none (ppm : List (String × PointState))
    (psm : List (String × Option ServeState)) (k : String)
    (hppm : mapGet ppm k = none) :
    ∀ (l : List Ev) (acc : ReconAcc),
      mapGet acc.flash k = none → mapGet acc.playLabel k = none →
      mapGet (l.foldl (reconBody ppm psm) acc).flash k = none ∧
      mapGet (l.foldl (reconBody ppm psm) acc).playLabel k = none := by
  intro l
  induction l with
  | nil => intro acc hf hp; exact ⟨hf, hp⟩
  | cons ev t ih =>
      intro acc hf hp
      simp only [List.foldl_cons]
      by_cases hk : eventKey ev = k
      · refine ih _ ?_ ?_
        · show mapGet (reconBody ppm psm acc ev).flash k = none
          simp only [reconBody, hk, hppm, Option.getD_none, stepEvent_baseline]
          simpa [flashStamp_false] using hf
        · show mapGet (reconBody ppm psm acc ev).playLabel k = none
          simp only [reconBody, hk, hppm, Option.getD_none, stepEvent_baseline]
          exact hp
      · refine ih _ ?_ ?_
        · show mapGet (reconBody ppm psm acc ev).flash k = none
          simp only [reconBody]
          rw [mapGet_flashStamp_ne _ _ _ _ _ (fun h => hk h.symm)]
          exact hf
        · show mapGet (reconBody ppm psm acc ev).playLabel k = none
          simp only [reconBody]
          rcases (stepEvent _ _ ev).label with _ | l
          · exact hp
          · rw [mapGet_mapSet_ne _ _ _ _ (fun h => hk h.symm)]
            exact hp

/-- Fold invariant: the serve table only gains entries for keys of
processed snapshots. -/
theorem recon_fold_serve_absent (ppm : List (String × PointState))
    (psm : List (String × Option ServeState)) (k : String) :
    ∀ (l : List Ev) (acc : ReconAcc),
      (∀ e ∈ l, eventKey e ≠ k) → mapGet acc.serve k = none →
      mapGet (l.foldl (reconBody ppm psm) acc).serve k = none := by
  intro l
  induction l with
  | nil => intro acc _ hs; exact hs
  | cons ev t ih =>
      intro acc hl hs
      simp only [List.foldl_cons]
      refine ih _ (fun e' he' => hl e' (List.mem_cons_of_mem _ he')) ?_
      show mapGet (reconBody ppm psm acc ev).serve k = none
      simp only [reconBody]
      rw [mapGet_mapSet_ne _ _ _ _ (Ne.symm (hl ev (List.mem_cons_self _ _)))]
      exact hs

/-- Fold invariant: an existing serve entry stays present, and every
processed snapshot's key gains one. -/
theorem recon_fold_serve_present (ppm : List (String × PointState))
    (psm : List (String × Option ServeState)) (k : String) :
    ∀ (l : List Ev) (acc : ReconAcc),
      ((mapGet acc.serve k).isSome = true ∨ ∃ e ∈ l, eventKey e = k) →
      (mapGet (l.foldl (reconBody ppm psm) acc).serve k).isSome = true := by
  intro l
  induction l with
  | nil =>
      intro acc h
      rcases h with h | ⟨e, he, _⟩
      · exact h
      · exact absurd he (List.not_mem_nil e)
  | cons ev t ih =>
      intro acc h
      simp only [List.foldl_cons]
      by_cases hk : eventKey ev = k
      · refine ih _ (Or.inl ?_)
        show (mapGet (reconBody ppm psm acc ev).serve k).isSome = true
        simp only [reconBody, ← hk, mapGet_mapSet_self, Option.isSome_some]
      · rcases h with h | ⟨e, he, hke⟩
        · refine ih _ (Or.inl ?_)
          show (mapGet (reconBody ppm psm acc ev).serve k).isSome = true
          simp only [reconBody]
          rw [mapGet_mapSet_ne _ _ _ _ (fun hkk => hk hkk.symm)]
          exact h
        · rcases List.mem_cons.mp he with rfl | hmem
          · exact absurd hke hk
          · exact ih _ (Or.inr ⟨e, hmem, hke⟩)

/-- C1: the serve-possession transition behaves exactly per the spec
table: with no score every prior state (including Unknown, i.e. `none`)
is unchanged with no label; from Unknown a scoring side S becomes
`Serving (S, hot := false)` with no label; from `Serving (S, _)` the same
side scoring yields `Serving (S, hot := true)` with a break-point label
for S; the other side O scoring yields `Serving (O, hot := false)` with a
side-out label for O. -/
theorem C1_serve_transition_matches_spec_table :
    (∀ prior : Option ServeState, advance prior none = (prior, none)) ∧
    (∀ s : Side, advance none (some s) = (some ⟨s, false⟩, none)) ∧
    (∀ (s : Side) (h : Bool),
      advance (some ⟨s, h⟩) (some s) =
        (some ⟨s, true⟩, some ⟨s, LabelKind.breakPoint⟩)) ∧
    (∀ (s o : Side) (h : Bool), o ≠ s →
      advance (some ⟨s, h⟩) (some o) =
        (some ⟨o, false⟩, some ⟨o, LabelKind.sideOut⟩)) := by
  refine ⟨fun prior => rfl, fun s => rfl, ?_, ?_⟩
  · intro s h
    simp [advance]
  · intro s o h hne
    have hso : s ≠ o := fun e => hne e.symm
    simp [advance, hso]

/-- Witness for C1 at a concrete input: home was serving, away scores,
giving away the serve with a side-out label. -/
theorem C1_serve_transition_matches_spec_table_witness :
    advance (some ⟨Side.home, true⟩) (some Side.away) =
      (some ⟨Side.away, false⟩, some ⟨Side.away, LabelKind.sideOut⟩) :=
  C1_serve_transition_matches_spec_table.2.2.2 Side.home Side.away true (by decide)

/-- C2: a side is judged to have scored iff both the prior and current
point values for that side are non-null and the current one is strictly
greater; and a key with no prior point state (first sighting) picks up
neither a flash entry nor a play label in that cycle. -/
theorem C2_score_judgement_and_first_sighting_baseline :
    (∀ cur prev : Option Int,
      sideInc cur prev = true ↔ ∃ c p, cur = some c ∧ prev = some p ∧ p < c) ∧
    (∀ (prevEvents : List Ev) (serveMap : List (String × Option ServeState))
       (nextEvents : List Ev) (k : String),
      (∀ e ∈ prevEvents, eventKey e ≠ k) →
      mapGet (reconcileStep prevEvents serveMap nextEvents).flash k = none ∧
      mapGet (reconcileStep prevEvents serveMap nextEvents).playLabel k = none) := by
  constructor
  · intro cur prev
    cases cur <;> cases prev <;> simp [sideInc]
  · intro prevEvents serveMap nextEvents k hprev
    have hppm : mapGet (prevPointsOf prevEvents) k = none :=
      mapGet_prevPoints_none k prevEvents [] hprev rfl
    exact recon_fold_fresh_key_none _ serveMap k hppm nextEvents ⟨[], [], []⟩ rfl rfl

/-- Concrete snapshot used by several witnesses: match key `"K"`, set 1
at 10-10. -/
def evK10 : Ev :=
  { baseEv with
    event_id := some "K"
    home_p := mkPoints [(1, 10)]
    away_p := mkPoints [(1, 10)] }

/-- Same match one home point later: set 1 at 11-10. -/
def evK11 : Ev :=
  { baseEv with
    event_id := some "K"
    home_p := mkPoints [(1, 11)]
    away_p := mkPoints [(1, 10)] }

/-- Same match another home point later: set 1 at 12-10. -/
def evK12 : Ev :=
  { baseEv with
    event_id := some "K"
    home_p := mkPoints [(1, 12)]
    away_p := mkPoints [(1, 10)] }

/-- Witness for C2: the first-ever sighting of match `"K"` with non-null
points produces no flash entry and no play label. -/
theorem C2_score_judgement_and_first_sighting_baseline_witness :
    mapGet (reconcileStep [] [] [evK10]).flash "K" = none ∧
    mapGet (reconcileStep [] [] [evK10]).playLabel "K" = none :=
  C2_score_judgement_and_first_sighting_baseline.2 [] [] [evK10] "K" (by simp)

/-- C9: within one `loadLive` invocation, an aborted (superseded) fetch
leaves every derived table and the snapshot array unchanged and surfaces
no error; any other failure also leaves them unchanged and sets exactly
the error message; and the whole step is independent of the previous
error state, so the next tick retries identically regardless of a prior
failure. -/
theorem C9_error_paths_preserve_derived_state :
    (∀ s : AppState,
      (pollStep s FetchOutcome.aborted).events = s.events ∧
      (pollStep s FetchOutcome.aborted).serveTable = s.serveTable ∧
      (pollStep s FetchOutcome.aborted).flash = s.flash ∧
      (pollStep s FetchOutcome.aborted).playLabel = s.playLabel ∧
      (pollStep s FetchOutcome.aborted).error = "") ∧
    (∀ (s : AppState) (msg : String),
      (pollStep s (FetchOutcome.failure msg)).events = s.events ∧
      (pollStep s (FetchOutcome.failure msg)).serveTable = s.serveTable ∧
      (pollStep s (FetchOutcome.failure msg)).flash = s.flash ∧
      (pollStep s (FetchOutcome.failure msg)).playLabel = s.playLabel ∧
      (pollStep s (FetchOutcome.failure msg)).error = msg) ∧
    (∀ (s : AppState) (e1 e2 : String) (o : FetchOutcome),
      pollStep { s with error := e1 } o = pollStep { s with error := e2 } o) := by
  refine ⟨fun s => ⟨rfl, rfl, rfl, rfl, rfl⟩,
          fun s msg => ⟨rfl, rfl, rfl, rfl, rfl⟩, ?_⟩
  intro s e1 e2 o
  cases o <;> rfl

/-- C10: when both sides' points increased since the prior poll (all four
values non-null), the loop body stamps both flash flags but feeds only a
single away score into the serve transition, the home detection having
been overwritten; serve state and label are exactly those of an away
score. -/
theorem C10_double_increase_feeds_single_away_score :
    ∀ (prev : PointState) (prevServe : Option ServeState) (ev : Ev)
      (ph ah pph pah : Int),
      (currentPoints ev).home = some ph → (currentPoints ev).away = some ah →
      prev.home = some pph → prev.away = some pah →
      pph < ph → pah < ah →
      stepEvent prev prevServe ev =
        ⟨some Side.away, true, true,
         (advance prevServe (some Side.away)).1,
         (advance prevServe (some Side.away)).2⟩ := by
  intro prev ps ev ph ah pph pah hcH hcA hpH hpA h1 h2
  have e1 : sideInc (currentPoints ev).home prev.home = true := by
    rw [hcH, hpH]; simp [sideInc, h1]
  have e2 : sideInc (currentPoints ev).away prev.away = true := by
    rw [hcA, hpA]; simp [sideInc, h2]
  simp [stepEvent, e1, e2]

/-- Concrete snapshot where both sides advanced from a 10-10 baseline. -/
def evBothInc : Ev :=
  { baseEv with
    event_id := some "K"
    home_p := mkPoints [(1, 12)]
    away_p := mkPoints [(1, 11)] }

/-- Witness for C10: from points 10-10 and home serving, a poll showing
12-11 flashes both sides but transitions the serve as a single away
score (side-out for away). -/
theorem C10_double_increase_feeds_single_away_score_witness :
    stepEvent ⟨some 1, some 10, some 10⟩ (some ⟨Side.home, false⟩) evBothInc =
      ⟨some Side.away, true, true, some ⟨Side.away, false⟩,
       some ⟨Side.away, LabelKind.sideOut⟩⟩ :=
  C10_double_increase_feeds_single_away_score ⟨some 1, some 10, some 10⟩
    (some ⟨Side.home, false⟩) evBothInc 12 11 10 10 (by decide) (by decide)
    rfl rfl (by decide) (by decide)

/-- C3: across two consecutive polls of the same match key in which the
current set index advances and both sides' current points reset to
strictly lower values, the reconciliation judges neither side to have
scored: no flash entry, no play label, and the serve entry passes the
prior serve value through unchanged, because the comparison is against
the immediately prior current point pair. -/
theorem C3_set_transition_never_misread_as_score :
    ∀ (ev0 ev1 : Ev) (serveMap : List (String × Option ServeState))
      (s0 s1 : Nat) (h0 a0 h1 a1 : Int),
      eventKey ev0 = eventKey ev1 →
      currentPoints ev0 = ⟨some s0, some h0, some a0⟩ →
      currentPoints ev1 = ⟨some s1, some h1, some a1⟩ →
      s0 < s1 → h1 < h0 → a1 < a0 →
      mapGet (reconcileStep [ev0] serveMap [ev1]).flash (eventKey ev1) = none ∧
      mapGet (reconcileStep [ev0] serveMap [ev1]).playLabel (eventKey ev1) = none ∧
      mapGet (reconcileStep [ev0] serveMap [ev1]).serve (eventKey ev1) =
        some ((mapGet serveMap (eventKey ev1)).getD none) := by
  intro ev0 ev1 serveMap s0 s1 h0 a0 h1 a1 hk hcp0 hcp1 _ hh ha
  have hH : sideInc (currentPoints ev1).home (currentPoints ev0).home = false := by
    rw [hcp0, hcp1]
    simp only [sideInc, decide_eq_false_iff_not]
    exact not_lt.mpr hh.le
  have hA : sideInc (currentPoints ev1).away (currentPoints ev0).away = false := by
    rw [hcp0, hcp1]
    simp only [sideInc, decide_eq_false_iff_not]
    exact not_lt.mpr ha.le
  have hstep :
      stepEvent (currentPoints ev0) ((mapGet serveMap (eventKey ev1)).getD none) ev1 =
        ⟨none, false, false, (mapGet serveMap (eventKey ev1)).getD none, none⟩ := by
    simp [stepEvent, hH, hA, advance]
  simp only [reconcileStep, prevPointsOf, List.foldl_cons, List.foldl_nil, reconBody,
    hk, mapGet_mapSet_self, Option.getD_some, hstep, flashStamp_false]
  exact ⟨rfl, rfl, trivial⟩

/-- Match `"K"` during set 1 at 25-20. -/
def evSet1 : Ev :=
  { baseEv with
    event_id := some "K"
    home_p := mkPoints [(1, 25)]
    away_p := mkPoints [(1, 20)] }

/-- Match `"K"` one poll later: set 2 has opened at 1-0, so the current
point pair reset to lower values in a new set. -/
def evSet2 : Ev :=
  { baseEv with
    event_id := some "K"
    home_p := mkPoints [(1, 25), (2, 1)]
    away_p := mkPoints [(1, 20), (2, 0)] }

/-- Witness for C3: the set boundary from 25-20 in set 1 to 1-0 in set 2
produces no flash, no label, and leaves the stored serve value (home,
hot) untouched. -/
theorem C3_set_transition_never_misread_as_score_witness :
    mapGet (reconcileStep [evSet1] [("K", some ⟨Side.home, true⟩)] [evSet2]).flash "K" = none ∧
    mapGet (reconcileStep [evSet1] [("K", some ⟨Side.home, true⟩)] [evSet2]).playLabel "K" = none ∧
    mapGet (reconcileStep [evSet1] [("K", some ⟨Side.home, true⟩)] [evSet2]).serve "K" =
      some (some ⟨Side.home, true⟩) :=
  C3_set_transition_never_misread_as_score evSet1 evSet2
    [("K", some ⟨Side.home, true⟩)] 1 2 25 20 1 0 rfl (by decide) (by decide)
    (by decide) (by decide) (by decide)

/-- Counterexample to C4: key `"K"` establishes serve state
`Serving (home)` after two polls (10-10 then 11-10); in the third poll
the key is absent from the snapshot array and its serve entry disappears
from the table entirely (lookup is `none`, not a skipped stale entry);
when the key reappears in the fourth poll the serve transition is fed
`null`, not the earlier `Serving (home)`, leaving the rebuilt entry
`null`. -/
theorem C4_counterexample_absent_key_entry_deleted :
    mapGet (pollStep (pollStep ⟨[], "", true, [], [], []⟩
        (FetchOutcome.success [evK10])) (FetchOutcome.success [evK11])).serveTable "K"
      = some (some ⟨Side.home, false⟩) ∧
    mapGet (pollStep (pollStep (pollStep ⟨[], "", true, [], [], []⟩
        (FetchOutcome.success [evK10])) (FetchOutcome.success [evK11]))
        (FetchOutcome.success [])).serveTable "K" = none ∧
    mapGet (pollStep (pollStep (pollStep (pollStep ⟨[], "", true, [], [], []⟩
        (FetchOutcome.success [evK10])) (FetchOutcome.success [evK11]))
        (FetchOutcome.success [])) (FetchOutcome.success [evK12])).serveTable "K"
      = some none := by decide

/-- C4 as amended: the serve table is rebuilt on every poll to contain
exactly the keys of the new snapshot array — a key absent from the new
snapshot array has its entry deleted, and if it reappears later its serve
state is re-derived from Unknown; a key present in the new snapshot array
always receives an entry. -/
theorem C4_amended_serve_table_rebuilt_from_snapshot_keys :
    (∀ (prevEvents : List Ev) (serveMap : List (String × Option ServeState))
       (nextEvents : List Ev) (k : String),
      (∀ e ∈ nextEvents, eventKey e ≠ k) →
      mapGet (reconcileStep prevEvents serveMap nextEvents).serve k = none) ∧
    (∀ (prevEvents : List Ev) (serveMap : List (String × Option ServeState))
       (nextEvents : List Ev) (ev : Ev), ev ∈ nextEvents →
      (mapGet (reconcileStep prevEvents serveMap nextEvents).serve (eventKey ev)).isSome
        = true) := by
  constructor
  · intro prevEvents serveMap nextEvents k habs
    exact recon_fold_serve_absent _ serveMap k nextEvents ⟨[], [], []⟩ habs rfl
  · intro prevEvents serveMap nextEvents ev hmem
    exact recon_fold_serve_present _ serveMap (eventKey ev) nextEvents ⟨[], [], []⟩
      (Or.inr ⟨ev, hmem, rfl⟩)

/-- Witness for the amended C4: with match `"K"` absent from the new
snapshot array its serve entry is gone, and when present it has one. -/
theorem C4_amended_serve_table_rebuilt_from_snapshot_keys_witness :
    mapGet (reconcileStep [evK11] [("K", some ⟨Side.home, false⟩)] []).serve "K" = none ∧
    (mapGet (reconcileStep [] [] [evK10]).serve (eventKey evK10)).isSome = true :=
  ⟨C4_amended_serve_table_rebuilt_from_snapshot_keys.1 [evK11]
      [("K", some ⟨Side.home, false⟩)] [] "K" (by simp),
   C4_amended_serve_table_rebuilt_from_snapshot_keys.2 [] [] [evK10] evK10
      (List.mem_singleton.mpr rfl)⟩

/-- The downward scan from 5 returns the greatest index in 1..5 whose
home or away slot is non-null. -/
theorem scanDown_eq_greatest (ev : Ev) (i : Nat) (h1 : 1 ≤ i) (h5 : i ≤ 5)
    (hc : ((ev.home_p i).isSome || (ev.away_p i).isSome) = true)
    (habove : ∀ j, i < j → j ≤ 5 → ev.home_p j = none ∧ ev.away_p j = none) :
    scanDown ev 5 = some i := by
  have hnone : ∀ j, i < j → j ≤ 5 → ((ev.home_p j).isSome || (ev.away_p j).isSome) = false := by
    intro j hj hj5
    obtain ⟨hh, ha⟩ := habove j hj hj5
    simp [hh, ha]
  interval_cases i
  · have g2 := hnone 2 (by omega) (by omega)
    have g3 := hnone 3 (by omega) (by omega)
    have g4 := hnone 4 (by omega) (by omega)
    have g5 := hnone 5 (by omega) (by omega)
    simp [scanDown, hc, g2, g3, g4, g5]
  · have g3 := hnone 3 (by omega) (by omega)
    have g4 := hnone 4 (by omega) (by omega)
    have g5 := hnone 5 (by omega) (by omega)
    simp [scanDown, hc, g3, g4, g5]
  · have g4 := hnone 4 (by omega) (by omega)
    have g5 := hnone 5 (by omega) (by omega)
    simp [scanDown, hc, g4, g5]
  · have g5 := hnone 5 (by omega) (by omega)
    simp [scanDown, hc, g5]
  · simp [scanDown, hc]

/-- The downward scan from 5 finds nothing when all slots 1..5 are
null. -/
theorem scanDown_eq_none (ev : Ev)
    (hall : ∀ j, 1 ≤ j → j ≤ 5 → ev.home_p j = none ∧ ev.away_p j = none) :
    scanDown ev 5 = none := by
  have hnone : ∀ j, 1 ≤ j → j ≤ 5 → ((ev.home_p j).isSome || (ev.away_p j).isSome) = false := by
    intro j hj hj5
    obtain ⟨hh, ha⟩ := hall j hj hj5
    simp [hh, ha]
  have g1 := hnone 1 (by omega) (by omega)
  have g2 := hnone 2 (by omega) (by omega)
  have g3 := hnone 3 (by omega) (by omega)
  have g4 := hnone 4 (by omega) (by omega)
  have g5 := hnone 5 (by omega) (by omega)
  simp [scanDown, g1, g2, g3, g4, g5]

/-- Snapshot whose only non-null point slot is set 6: the hard-coded
scan 5..1 never sees it. -/
def evHiddenSet6 : Ev :=
  { baseEv with home_p := mkPoints [(6, 3)] }

/-- Snapshot whose status description names set 2 while the highest
non-null slot is set 3: the description wins. -/
def evDescSet2 : Ev :=
  { baseEv with
    status_desc := some "2. sett"
    home_p := mkPoints [(2, 5), (3, 7)] }

/-- Counterexample to C5: the current set is not the highest set index
with any non-null value, and the scan has a hard-coded maximum of 5.
With points only in slot 6 the computed current set is absent instead of
6; with a status description naming set 2 and a non-null slot 3 the
computed current set is 2 instead of 3. -/
theorem C5_counterexample_not_pure_downward_scan :
    currentPoints evHiddenSet6 = ⟨none, none, none⟩ ∧
    (currentPoints evHiddenSet6).setNo ≠ some 6 ∧
    currentPoints evDescSet2 = ⟨some 2, some 5, none⟩ ∧
    (currentPoints evDescSet2).setNo ≠ some 3 := by decide

/-- C5 as amended: the current set number is taken first from the first
digit run of the status description (when present and non-zero, reading
that slot's points directly, even beyond slot 5); when the parse is
absent or zero, the point slots are scanned from the hard-coded maximum
index 5 down to 1, the first slot with any non-null value becoming
current; when the scan also finds nothing, the current set is absent if
the parse was absent, but is the (falsy) set number 0 with null points
if the parse was zero. -/
theorem C5_amended_current_set_selection :
    (∀ (ev : Ev) (n : Nat), firstNat (ev.status_desc.getD "") = some n → n ≠ 0 →
      currentPoints ev = ⟨some n, ev.home_p n, ev.away_p n⟩) ∧
    (∀ (ev : Ev) (i : Nat),
      (firstNat (ev.status_desc.getD "") = none ∨
       firstNat (ev.status_desc.getD "") = some 0) →
      1 ≤ i → i ≤ 5 →
      ((ev.home_p i).isSome || (ev.away_p i).isSome) = true →
      (∀ j, i < j → j ≤ 5 → ev.home_p j = none ∧ ev.away_p j = none) →
      currentPoints ev = ⟨some i, ev.home_p i, ev.away_p i⟩) ∧
    (∀ ev : Ev, firstNat (ev.status_desc.getD "") = none →
      (∀ j, 1 ≤ j → j ≤ 5 → ev.home_p j = none ∧ ev.away_p j = none) →
      currentPoints ev = ⟨none, none, none⟩) ∧
    (∀ ev : Ev, firstNat (ev.status_desc.getD "") = some 0 →
      (∀ j, 1 ≤ j → j ≤ 5 → ev.home_p j = none ∧ ev.away_p j = none) →
      currentPoints ev = ⟨some 0, none, none⟩) := by
  refine ⟨?_, ?_, ?_, ?_⟩
  · intro ev n hp hn
    simp [currentPoints, hp, hn]
  · intro ev i hp h1 h5 hc habove
    have hscan := scanDown_eq_greatest ev i h1 h5 hc habove
    have hi : i ≠ 0 := by omega
    rcases hp with hp | hp <;> simp [currentPoints, hp, hscan, hi]
  · intro ev hp hall
    simp [currentPoints, hp, scanDown_eq_none ev hall]
  · intro ev hp hall
    simp [currentPoints, hp, scanDown_eq_none ev hall]

/-- Snapshot whose status description names set 3 with that slot
filled. -/
def evDescSet3 : Ev :=
  { baseEv with
    status_desc := some "3. sett"
    home_p := mkPoints [(3, 7)]
    away_p := mkPoints [(3, 4)] }

/-- Snapshot whose status description parses to 0 and whose point slots
are all null. -/
def evDescZero : Ev :=
  { baseEv with status_desc := some "0:2" }

/-- Witness for the amended C5: the status description selects set 3 and
its points are read from slot 3; with no description, 25-20 in slot 1 is
found by the scan; and a zero parse with no filled slot yields the falsy
set number 0 with null points. -/
theorem C5_amended_current_set_selection_witness :
    currentPoints evDescSet3 = ⟨some 3, evDescSet3.home_p 3, evDescSet3.away_p 3⟩ ∧
    currentPoints evSet1 = ⟨some 1, evSet1.home_p 1, evSet1.away_p 1⟩ ∧
    currentPoints evDescZero = ⟨some 0, none, none⟩ :=
  ⟨C5_amended_current_set_selection.1 evDescSet3 3 (by decide) (by decide),
   C5_amended_current_set_selection.2.1 evSet1 1 (Or.inl (by decide)) (by decide)
     (by decide) (by decide)
     (by intro j hj hj5; interval_cases j <;> exact ⟨by decide, by decide⟩),
   C5_amended_current_set_selection.2.2.2 evDescZero (by decide)
     (by intro j hj hj5; interval_cases j <;> exact ⟨by decide, by decide⟩)⟩

/-- C6: classification is a pure three-way function of the snapshot and
the roster map: it returns the home-federation category (`mizuno`) iff
some side resolves in the roster with country `"Norge"`; otherwise
`abroad` iff at least one side resolves at all; otherwise (neither side
resolves) `other`; and with an empty roster every match is `other`.
Purity and determinism are immediate: the embedding is a function of
exactly `(ev, roster)`. -/
theorem C6_classification_three_way :
    ∀ (ev : Ev) (roster : Int → Option TeamRec),
      (classifyEventGroup ev roster = EvGroup.mizuno ↔
        (∃ t, (getHomeId ev).bind roster = some t ∧ t.country = "Norge") ∨
        (∃ t, (getAwayId ev).bind roster = some t ∧ t.country = "Norge")) ∧
      (classifyEventGroup ev roster = EvGroup.abroad ↔
        ((getHomeId ev).bind roster ≠ none ∨ (getAwayId ev).bind roster ≠ none) ∧
        ¬((∃ t, (getHomeId ev).bind roster = some t ∧ t.country = "Norge") ∨
          (∃ t, (getAwayId ev).bind roster = some t ∧ t.country = "Norge"))) ∧
      (classifyEventGroup ev roster = EvGroup.other ↔
        (getHomeId ev).bind roster = none ∧ (getAwayId ev).bind roster = none) ∧
      classifyEventGroup ev (fun _ => none) = EvGroup.other := by
  intro ev roster
  have hempty : classifyEventGroup ev (fun _ => none) = EvGroup.other := by
    unfold classifyEventGroup
    cases getHomeId ev <;> cases getAwayId ev <;> rfl
  rcases hh : (getHomeId ev).bind roster with _ | th <;>
  rcases ha : (getAwayId ev).bind roster with _ | ta
  · refine ⟨?_, ?_, ?_, hempty⟩ <;> simp [classifyEventGroup, hh, ha]
  · by_cases hta : ta.country = "Norge" <;>
      refine ⟨?_, ?_, ?_, hempty⟩ <;>
        simp [classifyEventGroup, hh, ha, hta, beq_iff_eq]
  · by_cases hth : th.country = "Norge" <;>
      refine ⟨?_, ?_, ?_, hempty⟩ <;>
        simp [classifyEventGroup, hh, ha, hth, beq_iff_eq]
  · by_cases hth : th.country = "Norge" <;> by_cases hta : ta.country = "Norge" <;>
      refine ⟨?_, ?_, ?_, hempty⟩ <;>
        simp [classifyEventGroup, hh, ha, hth, hta, beq_iff_eq]

/-- The keep-awake condition unfolds to: a focused event is found, it is
live, and its current set number is non-null. -/
theorem shouldKeepAwake_iff (f : Option String) (fl le : List Ev) :
    shouldKeepAwake f fl le = true ↔
      ∃ id ev, f = some id ∧ findEvent id fl le = some ev ∧
        isLiveStatus ev.status_type = true ∧ (currentPoints ev).setNo.isSome = true := by
  cases f with
  | none => simp [shouldKeepAwake]
  | some id =>
      cases hfe : findEvent id fl le with
      | none => simp [shouldKeepAwake, hfe]
      | some ev => simp [shouldKeepAwake, hfe, Bool.and_eq_true]

/-- C7 (on a platform supporting the wake lock): after the reconciliation
effect the lock is held iff a focused match is found, its status is live
and its current set number is non-null — so flipping any of the three
conditions false releases the lock in the same step; re-requesting while
held returns the identical handle (at most one instance, no-op); and the
visibility handler re-acquires the lock on a transition to visible when
the preconditions still hold, whatever the platform did to the handle
while hidden. -/
theorem C7_wake_lock_held_iff_preconditions :
    (∀ (fresh : Nat) (f : Option String) (fl le : List Ev) (lock : Option Nat),
      (wakeLockEffect true fresh f fl le lock).isSome = true ↔
        ∃ id ev, f = some id ∧ findEvent id fl le = some ev ∧
          isLiveStatus ev.status_type = true ∧ (currentPoints ev).setNo.isSome = true) ∧
    (∀ (fresh h : Nat), requestWakeLock true fresh (some h) = some h) ∧
    (∀ (fresh : Nat) (f : Option String) (fl le : List Ev) (lock : Option Nat),
      shouldKeepAwake f fl le = true →
      (handleVisibility true true fresh f fl le lock).isSome = true) := by
  refine ⟨?_, fun fresh h => rfl, ?_⟩
  · intro fresh f fl le lock
    rw [← shouldKeepAwake_iff]
    unfold wakeLockEffect
    by_cases hsk : shouldKeepAwake f fl le = true
    · simp only [hsk, if_true]
      cases lock <;> simp [requestWakeLock, hsk]
    · simp only [Bool.not_eq_true] at hsk
      simp [hsk, releaseWakeLock]
  · intro fresh f fl le lock hsk
    simp only [handleVisibility, hsk, Bool.and_true, if_true]
    cases lock <;> simp [requestWakeLock]

/-- Live focused snapshot used by the C7 witness. -/
def evFocusLive : Ev :=
  { baseEv with
    event_id := some "F"
    status_type := some "inprogress"
    home_p := mkPoints [(1, 5)]
    away_p := mkPoints [(1, 3)] }

/-- Witness for C7: with match `"F"` focused, live and in set 1, the
visibility handler re-acquires the lock after the platform revoked it. -/
theorem C7_wake_lock_held_iff_preconditions_witness :
    (handleVisibility true true 42 (some "F") [evFocusLive] [] none).isSome = true :=
  C7_wake_lock_held_iff_preconditions.2.2 42 (some "F") [evFocusLive] [] none (by decide)

/-- Live match whose home team resolves in the roster with country
`"Norge"`. -/
def evMizuno : Ev :=
  { baseEv with
    event_id := some "M"
    status_type := some "inprogress"
    home_team_id := some 501 }

/-- Roster resolving exactly the foreign team id 501 to a Norwegian
team. -/
def rosterNor : Int → Option TeamRec :=
  fun i => if i = 501 then some ⟨"Norge"⟩ else none

/-- Counterexample to C8: the smart default-filter effect changes the
active category filter (from `other` to `mizuno`, because a Norwegian
live match appeared in the counts) while the focus selection stays
`some "X"` — the filter changed but focus was not cleared. -/
theorem C8_counterexample_smart_filter_keeps_focus :
    smartDefaultFilter (countGroups [evMizuno] rosterNor) ⟨EvGroup.other, some "X"⟩ =
      ⟨EvGroup.mizuno, some "X"⟩ ∧
    EvGroup.mizuno ≠ EvGroup.other ∧
    (some "X" : Option String) ≠ none := by decide

/-- C8 as amended: a filter change made through the filter buttons
unconditionally clears the focus selection; clicking the focused card
again clears focus (toggle) and clicking a different card replaces it,
a card without a stable id clearing it; but the smart default-filter
effect, which also changes the active filter whenever the per-category
counts change, never touches the focus selection. -/
theorem C8_amended_focus_and_filter_rules :
    (∀ (s : UiState) (k : EvGroup), clickFilterButton s k = ⟨k, none⟩) ∧
    (∀ s : UiState, clickCard s none = { s with focusedId := none }) ∧
    (∀ (s : UiState) (i : String), s.focusedId = some i →
      clickCard s (some i) = { s with focusedId := none }) ∧
    (∀ (s : UiState) (i : String), s.focusedId ≠ some i →
      clickCard s (some i) = { s with focusedId := some i }) ∧
    (∀ (c : Counts) (s : UiState), (smartDefaultFilter c s).focusedId = s.focusedId) := by
  refine ⟨fun s k => rfl, fun s => rfl, ?_, ?_, fun c s => rfl⟩
  · intro s i h
    simp [clickCard, h]
  · intro s i h
    simp [clickCard, h]

/-- Witness for the amended C8: clicking the focused card `"X"` toggles
the focus off. -/
theorem C8_amended_focus_and_filter_rules_witness :
    clickCard ⟨EvGroup.other, some "X"⟩ (some "X") = ⟨EvGroup.other, none⟩ :=
  C8_amended_focus_and_filter_rules.2.2.1 ⟨EvGroup.other, some "X"⟩ "X" rfl
